import Mathlib

/-!
Verification of the slot lease manager of the Job-Meth fridge-reservation bot.

The backing store is the `fridge_slots` table: one row per slot with four
nullable columns (`reserved_by_id`, `reserved_by_name`, `reserved_at`,
`ends_at`).  We embed the table as a `List Slot` ordered by `slot_no`;
SQL `NULL` is `Option.none`, `TIMESTAMPTZ` values are `Int` millisecond
epochs, and each SQL statement becomes a pure function from the old table
to its result and the new table.
-/

namespace JobMeth

/-- Configuration constant `SLOT_COUNT = 24`. -/
def SLOT_COUNT : Nat := 24

/-- Configuration constant `RESERVE_HOURS = 8`. -/
def RESERVE_HOURS : Int := 8

/-- One row of the `fridge_slots` table. -/
structure Slot where
  slot_no : Nat
  reserved_by_id : Option String
  reserved_by_name : Option String
  reserved_at : Option Int
  ends_at : Option Int
deriving DecidableEq, Repr

/-- The `SET ... = NULL` assignment shared by `freeExpiredSlots` and
`releaseSpecificSlot`: clears the four mutable columns of a row. -/
def clearSlot (sl : Slot) : Slot :=
  { sl with reserved_by_id := none, reserved_by_name := none,
            reserved_at := none, ends_at := none }

/-- The `WHERE ends_at IS NOT NULL AND ends_at <= NOW()` condition of
`freeExpiredSlots`. -/
def slotExpired (now : Int) (sl : Slot) : Bool :=
  match sl.ends_at with
  | some e => decide (e ≤ now)
  | none => false

/-- The effect of the sweep `UPDATE` on one row. -/
def sweepRow (now : Int) (sl : Slot) : Slot :=
  if slotExpired now sl then clearSlot sl else sl

/-- Sweep `freeExpiredSlots`: `UPDATE fridge_slots SET <all four NULL>
WHERE ends_at IS NOT NULL AND ends_at <= NOW()`. -/
def freeExpiredSlots (now : Int) (store : List Slot) : List Slot :=
  store.map (sweepRow now)

/-- The `WHERE slot_no=$4 AND reserved_by_id IS NULL` condition of
`reserveSlot`. -/
def reserveMatch (slotNo : Nat) (sl : Slot) : Bool :=
  decide (sl.slot_no = slotNo ∧ sl.reserved_by_id = none)

/-- The `SET` clause of `reserveSlot`: writes holder id, holder name,
`reserved_at = NOW()` and `ends_at = now + RESERVE_HOURS` (in ms). -/
def reservedRow (userId userName : String) (now : Int) (sl : Slot) : Slot :=
  { sl with reserved_by_id := some userId, reserved_by_name := some userName,
            reserved_at := some now,
            ends_at := some (now + RESERVE_HOURS * 60 * 60 * 1000) }

/-- Claim `reserveSlot(slotNo, userId, userName)`: a single conditional
`UPDATE ... WHERE slot_no=$4 AND reserved_by_id IS NULL RETURNING slot_no`;
the JS returns `r.rowCount === 1`.  The pair is (success flag, new table). -/
def reserveSlot (slotNo : Nat) (userId userName : String) (now : Int)
    (store : List Slot) : Bool × List Slot :=
  let rowCount := store.countP (reserveMatch slotNo)
  let store' := store.map
    (fun sl => if reserveMatch slotNo sl then reservedRow userId userName now sl else sl)
  (rowCount == 1, store')

/-- The `WHERE slot_no=$1 AND reserved_by_id=$2` condition of
`releaseSpecificSlot`. -/
def releaseMatch (slotNo : Nat) (userId : String) (sl : Slot) : Bool :=
  decide (sl.slot_no = slotNo ∧ sl.reserved_by_id = some userId)

/-- Release `releaseSpecificSlot(slotNo, userId)`: conditional `UPDATE ... SET <all
four NULL> WHERE slot_no=$1 AND reserved_by_id=$2 RETURNING slot_no`; the JS
returns `r.rows[0]?.slot_no ?? null`. -/
def releaseSpecificSlot (slotNo : Nat) (userId : String)
    (store : List Slot) : Option Nat × List Slot :=
  let returned := (store.filter (releaseMatch slotNo userId)).map (·.slot_no)
  let store' := store.map
    (fun sl => if releaseMatch slotNo userId sl then clearSlot sl else sl)
  (returned.head?, store')

/-- Read `getUserReservedSlots(userId)`: `SELECT ... WHERE reserved_by_id=$1
ORDER BY slot_no ASC`.  The raw read filters on the holder column only. -/
def getUserReservedSlots (userId : String) (store : List Slot) : List Slot :=
  store.filter (fun sl => decide (sl.reserved_by_id = some userId))

/-- The `slots.filter((s) => !s.reserved_by_id)` free-slot filter used by the
`fridge_reserve` button handler to build the claim dropdown. -/
def freeSlotsFilter (store : List Slot) : List Slot :=
  store.filter (fun sl => sl.reserved_by_id.isNone)

/-! ### Snapshot renderer (`pad2`, `humanRemaining`, `buildPanelEmbed`) -/

/-- Format `pad2(n)`: `String(n).padStart(2, "0")`. -/
def pad2 (n : Nat) : String :=
  let s := toString n
  if s.length < 2 then "0" ++ s else s

/-- Render `humanRemaining(ms)`.  For positive `ms` the JS computes
`totalMin = Math.floor(ms / 60000)`, `h = Math.floor(totalMin / 60)`,
`m = totalMin % 60`; `h <= 0` on a nonneg integer is `h = 0`. -/
def humanRemaining (ms : Int) : String :=
  if ms ≤ 0 then "expirat"
  else
    let totalMin := ms.toNat / 60000
    let h := totalMin / 60
    let m := totalMin % 60
    if h = 0 then "peste " ++ toString m ++ " minute"
    else if m = 0 then "peste " ++ toString h ++ " ore"
    else "peste " ++ toString h ++ " ore " ++ toString m ++ " minute"

/-- Which clauses `humanRemaining` emits: `none` is the expired marker,
otherwise the pair of the optional hours clause and optional minutes clause. -/
def remainClauses (ms : Int) : Option (Option Nat × Option Nat) :=
  if ms ≤ 0 then none
  else
    let totalMin := ms.toNat / 60000
    let h := totalMin / 60
    let m := totalMin % 60
    if h = 0 then some (none, some m)
    else if m = 0 then some (some h, none)
    else some (some h, some m)

/-- One line of the panel body for one slot.  The JS guard
`!s.reserved_by_id || !s.ends_at` is NULL-ness of either column. -/
def slotLine (now : Int) (sl : Slot) : String :=
  let label := "[" ++ pad2 sl.slot_no ++ "]"
  match sl.reserved_by_id, sl.ends_at with
  | some _, some ends =>
      let remaining := humanRemaining (ends - now)
      let name := match sl.reserved_by_name with
        | some n => n
        | none => "Necunoscut"
      label ++ " 🔴 " ++ name ++ "  ⏳ " ++ remaining
  | _, _ => label ++ " 🟢 Liber"

/-- The rendered display document: an embed with a title and a description. -/
structure DisplayDoc where
  title : String
  description : String
deriving DecidableEq, Repr

/-- Render `buildPanelEmbed(slots)`: header lines, then one line per slot, joined
with newlines inside a code block.  `Date.now()` is the `now` argument. -/
def buildPanelEmbed (now : Int) (slots : List Slot) : DisplayDoc :=
  let lines := ["📱 Sistem automatizat. Selectează un frigider pentru rezervare.", "",
                "🧊 Status Frigidere", ""] ++ slots.map (slotLine now)
  { title := "Garaj Operations Panel",
    description := "```" ++ String.intercalate "\n" lines ++ "```" }

/-! ### Panel controller (`getMeta`, `setMeta`, `upsertPanelMessage`)

The external world visible to `upsertPanelMessage`: the slot table, the
`fridge_meta` key-value table, and the panel channel's messages (id ↦
rendered document).  `channel.send` draws fresh ids from a counter. -/

structure World where
  slots : List Slot
  meta : List (String × String)
  messages : List (String × DisplayDoc)
  nextMsgId : Nat
deriving DecidableEq, Repr

/-- Lookup `getMeta(key)`: `SELECT v FROM fridge_meta WHERE k=$1`, first row or null. -/
def getMeta (key : String) (meta : List (String × String)) : Option String :=
  (meta.find? (fun p => p.1 == key)).map (·.2)

/-- Upsert `setMeta(key, value)`: `INSERT ... ON CONFLICT (k) DO UPDATE SET v`. -/
def setMeta (key value : String) (meta : List (String × String)) :
    List (String × String) :=
  if meta.any (fun p => p.1 == key) then
    meta.map (fun p => if p.1 == key then (key, value) else p)
  else
    meta ++ [(key, value)]

/-- Fetch `channel.messages.fetch(id)` on the panel channel. -/
def fetchMessage (id : String) (msgs : List (String × DisplayDoc)) :
    Option DisplayDoc :=
  (msgs.find? (fun p => p.1 == id)).map (·.2)

/-- Edit `msg.edit(...)`: replace the document stored under `id`. -/
def editMessage (id : String) (doc : DisplayDoc)
    (msgs : List (String × DisplayDoc)) : List (String × DisplayDoc) :=
  msgs.map (fun p => if p.1 == id then (id, doc) else p)

/-- Publish `upsertPanelMessage()`: sweep, read all slots, render, then edit the
message recorded in `fridge_meta` under `panel_message_id` if it still
exists, else send a new message and record its id. -/
def upsertPanelMessage (now : Int) (w : World) : World × DisplayDoc :=
  let slots := freeExpiredSlots now w.slots
  let embed := buildPanelEmbed now slots
  let w1 : World := { w with slots := slots }
  match getMeta "panel_message_id" w1.meta with
  | some mid =>
    match fetchMessage mid w1.messages with
    | some _ => ({ w1 with messages := editMessage mid embed w1.messages }, embed)
    | none =>
      let nid := toString w1.nextMsgId
      ({ w1 with messages := w1.messages ++ [(nid, embed)],
                 nextMsgId := w1.nextMsgId + 1,
                 meta := setMeta "panel_message_id" nid w1.meta }, embed)
  | none =>
    let nid := toString w1.nextMsgId
    ({ w1 with messages := w1.messages ++ [(nid, embed)],
               nextMsgId := w1.nextMsgId + 1,
               meta := setMeta "panel_message_id" nid w1.meta }, embed)

/-! ### Interaction handlers relevant to input validation -/

/-- Outcome of the `fridge_pick_slot` select-menu handler. -/
inductive PickOutcome where
  | invalid
  | alreadyReserved
  | reserved (slotNo : Nat)
deriving DecidableEq, Repr

/-- Outcome of the `fridge_release_pick` select-menu handler. -/
inductive ReleaseOutcome where
  | invalid
  | notHeld
  | released (slotNo : Nat)
deriving DecidableEq, Repr

/-- The `fridge_pick_slot` handler.  `value` models
`Number(interaction.values[0])`: `none` when the selection is malformed
(`!Number.isInteger`), `some n` for the integer `n`.  The range check runs
before any query; on the valid path the handler sweeps, reserves, and on
success republishes the panel (which sweeps again). -/
def fridgePickSlot (value : Option Int) (userId userName : String) (now : Int)
    (store : List Slot) : PickOutcome × List Slot :=
  match value with
  | none => (.invalid, store)
  | some slotNo =>
    if slotNo < 1 ∨ (SLOT_COUNT : Int) < slotNo then (.invalid, store)
    else
      let store1 := freeExpiredSlots now store
      let r := reserveSlot slotNo.toNat userId userName now store1
      if r.1 then (.reserved slotNo.toNat, freeExpiredSlots now r.2)
      else (.alreadyReserved, r.2)

/-- The `fridge_release_pick` handler, with the same validation gate. -/
def fridgeReleasePick (value : Option Int) (userId : String) (now : Int)
    (store : List Slot) : ReleaseOutcome × List Slot :=
  match value with
  | none => (.invalid, store)
  | some slotNo =>
    if slotNo < 1 ∨ (SLOT_COUNT : Int) < slotNo then (.invalid, store)
    else
      let store1 := freeExpiredSlots now store
      let r := releaseSpecificSlot slotNo.toNat userId store1
      match r.1 with
      | some n => (.released n, freeExpiredSlots now r.2)
      | none => (.notHeld, r.2)

/-! ### The two source variants' top-level function inventories

`src/index.js` is the single-slot-per-user variant: its `fridge_release`
button handler calls `releaseUserSlot(interaction.user.id)`, but the file
defines no such function anywhere. -/

/-- Every top-level function declared in `src/index.js`. -/
def indexJsDefinedFunctions : List String :=
  ["mustEnv", "dbInit", "getMeta", "setMeta", "freeExpiredSlots", "getSlots",
   "reserveSlot", "pad2", "humanRemaining", "buildPanelEmbed",
   "buildControlsRow", "upsertPanelMessage", "registerCommands"]

/-- The project-level (non-method) identifiers the `fridge_release` branch of
the `index.js` interaction handler applies as functions. -/
def indexJsReleaseHandlerCalls : List String :=
  ["freeExpiredSlots", "releaseUserSlot", "upsertPanelMessage", "pad2"]

/-! ### Concrete tables and worlds used to instantiate the theorems -/

/-- A slot held by "alice" whose lease expired at time 5. -/
def staleSlot : Slot := ⟨1, some "alice", some "Alice", some 0, some 5⟩

/-- A two-row table: slot 1 held by "alice", slot 2 free. -/
def witStore : List Slot :=
  [⟨1, some "alice", some "Alice", some 0, some 28800000⟩,
   ⟨2, none, none, none, none⟩]

/-- A fresh deployment: slots initialised, no metadata, empty channel. -/
def emptyWorld : World := ⟨witStore, [], [], 0⟩

/-- The panel-controller invariant `upsertPanelMessage` establishes: the
slot table is already swept at `now`, and the persisted
`panel_message_id` names at least one channel message, every message under
that id carrying the current rendering. -/
def PanelOk (now : Int) (w : World) : Prop :=
  w.slots = freeExpiredSlots now w.slots ∧
  ∃ mid, getMeta "panel_message_id" w.meta = some mid ∧
    (∃ p ∈ w.messages, p.1 = mid) ∧
    (∀ p ∈ w.messages, p.1 = mid → p = (mid, buildPanelEmbed now w.slots))

/-! ### Helper lemmas -/

/-- A conditional row update whose condition holds nowhere is the identity. -/
theorem map_ite_eq_self {α : Type} {p : α → Bool} {f : α → α} {l : List α}
    (h : ∀ a ∈ l, p a = false) :
    l.map (fun a => if p a then f a else a) = l := by
  induction l with
  | nil => rfl
  | cons a t ih =>
    have ha := h a (List.mem_cons_self a t)
    simp only [List.map_cons, ha, Bool.false_eq_true, if_false, List.cons.injEq,
      true_and]
    exact ih (fun x hx => h x (List.mem_cons_of_mem a hx))

theorem reserveMatch_iff {s : Nat} {sl : Slot} :
    reserveMatch s sl = true ↔ sl.slot_no = s ∧ sl.reserved_by_id = none := by
  simp [reserveMatch]

theorem releaseMatch_iff {s : Nat} {u : String} {sl : Slot} :
    releaseMatch s u sl = true ↔ sl.slot_no = s ∧ sl.reserved_by_id = some u := by
  simp [releaseMatch]

/-- With distinct slot numbers (the primary key), at most one row can satisfy
the `reserveSlot` condition. -/
theorem countP_reserveMatch_le_one {store : List Slot} {s : Nat}
    (hnodup : (store.map (fun sl => sl.slot_no)).Nodup) :
    store.countP (reserveMatch s) ≤ 1 := by
  have h1 : store.countP (reserveMatch s)
      ≤ store.countP (fun sl => sl.slot_no == s) := by
    refine List.countP_mono_left (fun sl _ hsl => ?_)
    rw [reserveMatch_iff] at hsl
    simp [hsl.1]
  have h2 : store.countP (fun sl => sl.slot_no == s)
      = (store.map (fun sl => sl.slot_no)).count s := by
    rw [List.count_eq_countP, List.countP_map]
    rfl
  have h3 := List.nodup_iff_count_le_one.mp hnodup s
  omega

/-- If the targeted slot exists, is unique, and is free, the `reserveSlot`
condition matches exactly one row. -/
theorem countP_reserveMatch_eq_one {store : List Slot} {s : Nat}
    (hnodup : (store.map (fun sl => sl.slot_no)).Nodup)
    (hfree : ∃ sl ∈ store, sl.slot_no = s ∧ sl.reserved_by_id = none) :
    store.countP (reserveMatch s) = 1 := by
  have hle := countP_reserveMatch_le_one (s := s) hnodup
  have hpos : 0 < store.countP (reserveMatch s) := by
    rw [List.countP_pos_iff]
    obtain ⟨sl, hmem, h1, h2⟩ := hfree
    exact ⟨sl, hmem, reserveMatch_iff.mpr ⟨h1, h2⟩⟩
  omega

/-- After a `reserveSlot` on slot `s`, no row still satisfies the
`reserveSlot` condition for `s`: the matched row now carries a holder. -/
theorem reserveSlot_post_no_match {store : List Slot} {s : Nat}
    {u n : String} {t : Int} :
    ∀ sl ∈ (reserveSlot s u n t store).2, reserveMatch s sl = false := by
  intro sl hsl
  simp only [reserveSlot, List.mem_map] at hsl
  obtain ⟨sl0, _, rfl⟩ := hsl
  by_cases hp : reserveMatch s sl0 = true
  · rw [if_pos hp]
    simp [reserveMatch, reservedRow]
  · rw [if_neg hp]
    rwa [Bool.not_eq_true] at hp

/-- The success flag of `reserveSlot` is the row-count comparison. -/
theorem reserveSlot_fst_eq {store : List Slot} {s : Nat} {u n : String} {t : Int} :
    (reserveSlot s u n t store).1 = (store.countP (reserveMatch s) == 1) := rfl

/-- The `reserveSlot` call succeeds exactly when its condition matches one row. -/
theorem reserveSlot_fst {store : List Slot} {s : Nat} {u n : String} {t : Int} :
    (reserveSlot s u n t store).1 = true ↔ store.countP (reserveMatch s) = 1 := by
  rw [reserveSlot_fst_eq]
  simp

/-- A cleared row never satisfies the sweep condition again. -/
theorem slotExpired_clearSlot (now : Int) (sl : Slot) :
    slotExpired now (clearSlot sl) = false := rfl

/-- An unexpired row passes through the sweep unchanged. -/
theorem sweepRow_eq_self {now : Int} {sl : Slot}
    (h : slotExpired now sl = false) : sweepRow now sl = sl := by
  unfold sweepRow
  rw [if_neg (by simp [h])]

/-- Sweeping one row twice is the same as sweeping it once. -/
theorem sweepRow_idem (now : Int) (sl : Slot) :
    sweepRow now (sweepRow now sl) = sweepRow now sl := by
  by_cases h : slotExpired now sl = true
  · unfold sweepRow
    rw [if_pos h]
    rw [if_neg (by simp [slotExpired_clearSlot])]
  · rw [Bool.not_eq_true] at h
    rw [sweepRow_eq_self h, sweepRow_eq_self h]

/-- Sweeping twice at the same instant is the same as sweeping once. -/
theorem freeExpiredSlots_idem (now : Int) (store : List Slot) :
    freeExpiredSlots now (freeExpiredSlots now store) = freeExpiredSlots now store := by
  unfold freeExpiredSlots
  rw [List.map_map]
  exact List.map_congr_left (fun sl _ => sweepRow_idem now sl)

/-- A cleared row has no holder and no expiry. -/
theorem clearSlot_fields (sl : Slot) :
    (clearSlot sl).reserved_by_id = none ∧ (clearSlot sl).ends_at = none := by
  simp [clearSlot]

/-! ### Claim theorems -/

/-- C1.  On a table whose slot numbers are distinct (the primary key) and in
which slot `s` is free, `claim(s, u1)` immediately followed by
`claim(s, u2)` has exactly one winner: the first succeeds, the second
returns `alreadyHeld` (`false`) and leaves the table untouched; and in
general a claim succeeds only when the targeted slot's `holder_id` is null
at the moment of the conditional update. -/
theorem claim_race_exactly_one_winner (store : List Slot) (s : Nat)
    (u1 n1 u2 n2 : String) (t1 t2 : Int)
    (hnodup : (store.map (fun sl => sl.slot_no)).Nodup)
    (hfree : ∃ sl ∈ store, sl.slot_no = s ∧ sl.reserved_by_id = none) :
    (reserveSlot s u1 n1 t1 store).1 = true ∧
    (reserveSlot s u2 n2 t2 (reserveSlot s u1 n1 t1 store).2).1 = false ∧
    (reserveSlot s u2 n2 t2 (reserveSlot s u1 n1 t1 store).2).2
      = (reserveSlot s u1 n1 t1 store).2 ∧
    (∀ (st : List Slot) (u n : String) (t : Int),
      (reserveSlot s u n t st).1 = true →
        ∃ sl ∈ st, sl.slot_no = s ∧ sl.reserved_by_id = none) := by
  have hone := countP_reserveMatch_eq_one hnodup hfree
  have hzero : (reserveSlot s u1 n1 t1 store).2.countP (reserveMatch s) = 0 :=
    List.countP_eq_zero.mpr
      (fun sl hsl => by rw [reserveSlot_post_no_match sl hsl]; exact Bool.false_ne_true)
  refine ⟨reserveSlot_fst.mpr hone, ?_, ?_, ?_⟩
  · rw [reserveSlot_fst_eq, hzero]
    rfl
  · conv_lhs => simp only [reserveSlot]
    exact map_ite_eq_self reserveSlot_post_no_match
  · intro st u n t h
    have hc := reserveSlot_fst.mp h
    have hpos : 0 < st.countP (reserveMatch s) := by omega
    obtain ⟨sl, hmem, hsl⟩ := List.countP_pos_iff.mp hpos
    exact ⟨sl, hmem, reserveMatch_iff.mp hsl⟩

/-- C2.  `releaseSpecificSlot(s, u)` returns the released slot number iff the
table holds a row for slot `s` whose `reserved_by_id` is `u`; when no row
matches (slot free or held by someone else) it returns `notHeld` (`none`)
and leaves the table — all four mutable columns of every row — unchanged. -/
theorem release_iff_held (store : List Slot) (s : Nat) (u : String) :
    ((releaseSpecificSlot s u store).1 = some s ↔
      ∃ sl ∈ store, sl.slot_no = s ∧ sl.reserved_by_id = some u) ∧
    ((∀ sl ∈ store, ¬(sl.slot_no = s ∧ sl.reserved_by_id = some u)) →
      (releaseSpecificSlot s u store).1 = none ∧
      (releaseSpecificSlot s u store).2 = store) := by
  constructor
  · simp only [releaseSpecificSlot, List.head?_map]
    cases hfil : store.filter (releaseMatch s u) with
    | nil =>
      rw [List.filter_eq_nil_iff] at hfil
      simp only [List.head?_nil, Option.map_none']
      constructor
      · intro h; exact absurd h (by simp)
      · rintro ⟨sl, hmem, h1, h2⟩
        exact absurd (releaseMatch_iff.mpr ⟨h1, h2⟩) (hfil sl hmem)
    | cons a t =>
      have ha : a ∈ store.filter (releaseMatch s u) := by
        rw [hfil]; exact List.mem_cons_self a t
      rw [List.mem_filter] at ha
      have hm := releaseMatch_iff.mp ha.2
      simp only [List.head?_cons, Option.map_some']
      constructor
      · intro _; exact ⟨a, ha.1, hm⟩
      · intro _; rw [hm.1]
  · intro h
    have hnone : ∀ sl ∈ store, releaseMatch s u sl = false := by
      intro sl hmem
      rw [← Bool.not_eq_true, releaseMatch_iff]
      exact h sl hmem
    constructor
    · simp only [releaseSpecificSlot, List.head?_map]
      rw [List.filter_eq_nil_iff.mpr
        (fun sl hmem => by rw [hnone sl hmem]; exact Bool.false_ne_true)]
      rfl
    · conv_lhs => simp only [releaseSpecificSlot]
      exact map_ite_eq_self hnone

/-- The table produced by `reserveSlot` is the conditional row update. -/
theorem reserveSlot_snd_eq {store : List Slot} {s : Nat} {u n : String} {t : Int} :
    (reserveSlot s u n t store).2 = store.map
      (fun sl => if reserveMatch s sl then reservedRow u n t sl else sl) := rfl

/-- Rows surviving a sweep are free or carry a strictly future expiry,
provided every held row carries an expiry (true of every reachable table:
`reserveSlot` writes both columns, the sweep and `releaseSpecificSlot`
clear both). -/
theorem mem_freeExpiredSlots_cases {now : Int} {store : List Slot}
    (hinv : ∀ sl ∈ store, sl.reserved_by_id ≠ none → sl.ends_at ≠ none) :
    ∀ sl ∈ freeExpiredSlots now store,
      sl.reserved_by_id = none ∨ ∃ e, sl.ends_at = some e ∧ now < e := by
  intro sl hsl
  unfold freeExpiredSlots at hsl
  rw [List.mem_map] at hsl
  obtain ⟨sl0, hmem, rfl⟩ := hsl
  by_cases h : slotExpired now sl0 = true
  · have hc : sweepRow now sl0 = clearSlot sl0 := by
      unfold sweepRow
      rw [if_pos h]
    rw [hc]
    exact Or.inl rfl
  · rw [Bool.not_eq_true] at h
    rw [sweepRow_eq_self h]
    cases hid : sl0.reserved_by_id with
    | none => exact Or.inl rfl
    | some v =>
      right
      have hne := hinv sl0 hmem (by rw [hid]; exact Option.some_ne_none v)
      obtain ⟨e, he⟩ := Option.ne_none_iff_exists'.mp hne
      refine ⟨e, he, ?_⟩
      unfold slotExpired at h
      rw [he] at h
      simp only [decide_eq_false_iff_not] at h
      omega

/-- C3.  Under the reachable-table invariant (held rows carry an expiry),
after `freeExpiredSlots` every row is Free or has a strictly future
`ends_at`; the sweep rewrites row by row, clearing exactly the rows whose
`ends_at` is at or before `now`; a sweep with nothing to clear is the
identity; and sweeping twice equals sweeping once. -/
theorem sweep_spec (now : Int) (store : List Slot)
    (hinv : ∀ sl ∈ store, sl.reserved_by_id ≠ none → sl.ends_at ≠ none) :
    (∀ sl ∈ freeExpiredSlots now store,
        sl.reserved_by_id = none ∨ ∃ e, sl.ends_at = some e ∧ now < e) ∧
    (∀ (i : Nat) (sl : Slot), store[i]? = some sl →
        (freeExpiredSlots now store)[i]?
          = some (if slotExpired now sl then clearSlot sl else sl)) ∧
    ((∀ sl ∈ store, slotExpired now sl = false) →
        freeExpiredSlots now store = store) ∧
    freeExpiredSlots now (freeExpiredSlots now store)
      = freeExpiredSlots now store := by
  refine ⟨mem_freeExpiredSlots_cases hinv, ?_, ?_, freeExpiredSlots_idem now store⟩
  · intro i sl h
    unfold freeExpiredSlots
    rw [List.getElem?_map, h]
    rfl
  · intro h
    unfold freeExpiredSlots
    calc store.map (sweepRow now)
        = store.map id := List.map_congr_left (fun sl hmem => sweepRow_eq_self (h sl hmem))
      _ = store := List.map_id store

/-- C4 is false as stated: with no sweep run, at read time 10 the raw
`getUserReservedSlots` read still returns the slot whose `ends_at = 5` is
already past, and the raw free-slot filter does not offer it as free. -/
theorem listHeldBy_returns_expired_slot :
    getUserReservedSlots "alice" [staleSlot] = [staleSlot] ∧
    staleSlot.ends_at = some 5 ∧ (5 : Int) ≤ 10 ∧
    staleSlot ∉ freeSlotsFilter [staleSlot] := by decide

/-- C4 (amended).  The read paths are expiry-aware only because each call
site runs `freeExpiredSlots` first: after that sweep, the held-slot listing
for `u` contains only slots held by `u` with strictly future `ends_at`
(under the reachable-table invariant), and every row that was expired at
`now` is offered as free by the claim dropdown's filter. -/
theorem read_paths_after_sweep (now : Int) (u : String) (store : List Slot)
    (hinv : ∀ sl ∈ store, sl.reserved_by_id ≠ none → sl.ends_at ≠ none) :
    (∀ sl ∈ getUserReservedSlots u (freeExpiredSlots now store),
        sl.reserved_by_id = some u ∧ ∃ e, sl.ends_at = some e ∧ now < e) ∧
    (∀ sl ∈ store, slotExpired now sl = true →
        clearSlot sl ∈ freeSlotsFilter (freeExpiredSlots now store)) := by
  constructor
  · intro sl hsl
    unfold getUserReservedSlots at hsl
    rw [List.mem_filter] at hsl
    obtain ⟨hmem, hp⟩ := hsl
    rw [decide_eq_true_iff] at hp
    refine ⟨hp, ?_⟩
    rcases mem_freeExpiredSlots_cases hinv sl hmem with hnone | hfut
    · rw [hp] at hnone
      exact absurd hnone (Option.some_ne_none u)
    · exact hfut
  · intro sl hmem h
    have hc : sweepRow now sl = clearSlot sl := by
      unfold sweepRow
      rw [if_pos h]
    have hmm : clearSlot sl ∈ freeExpiredSlots now store := by
      unfold freeExpiredSlots
      rw [← hc]
      exact List.mem_map_of_mem (sweepRow now) hmem
    unfold freeSlotsFilter
    rw [List.mem_filter]
    exact ⟨hmm, rfl⟩

/-- C10.  The `reserveSlot` condition mentions only the targeted row, so a
user who already holds a slot can still claim any other free slot: the
claim succeeds, the previously held row is untouched, and the user ends up
holding both. -/
theorem claim_has_no_per_user_quota (store : List Slot) (u uname : String)
    (s : Nat) (now : Int) (sl' : Slot)
    (hnodup : (store.map (fun sl => sl.slot_no)).Nodup)
    (hheld : sl' ∈ store) (hholder : sl'.reserved_by_id = some u)
    (hfree : ∃ sl ∈ store, sl.slot_no = s ∧ sl.reserved_by_id = none) :
    (reserveSlot s u uname now store).1 = true ∧
    sl' ∈ (reserveSlot s u uname now store).2 ∧
    ∃ sl ∈ (reserveSlot s u uname now store).2,
      sl.slot_no = s ∧ sl.reserved_by_id = some u := by
  refine ⟨reserveSlot_fst.mpr (countP_reserveMatch_eq_one hnodup hfree), ?_, ?_⟩
  · have hm : reserveMatch s sl' = false := by
      rw [← Bool.not_eq_true, reserveMatch_iff]
      rintro ⟨_, h2⟩
      rw [hholder] at h2
      exact Option.some_ne_none u h2
    rw [reserveSlot_snd_eq]
    have hmm : (if reserveMatch s sl' then reservedRow u uname now sl' else sl')
        ∈ store.map (fun sl => if reserveMatch s sl then reservedRow u uname now sl else sl) :=
      List.mem_map_of_mem _ hheld
    rw [if_neg (by simp [hm])] at hmm
    exact hmm
  · obtain ⟨sl0, hmem, h1, h2⟩ := hfree
    have hm : reserveMatch s sl0 = true := reserveMatch_iff.mpr ⟨h1, h2⟩
    rw [reserveSlot_snd_eq]
    have hmm : (if reserveMatch s sl0 then reservedRow u uname now sl0 else sl0)
        ∈ store.map (fun sl => if reserveMatch s sl then reservedRow u uname now sl else sl) :=
      List.mem_map_of_mem _ hmem
    rw [if_pos hm] at hmm
    exact ⟨reservedRow u uname now sl0, hmm, by simp [reservedRow, h1]⟩

/-- C5: the single-slot variant's release path is broken in the code: the
`fridge_release` button branch of the `src/index.js` interaction handler
applies `releaseUserSlot`, yet no function of that name is declared
anywhere in the file (or the repository), so the call site cannot resolve
and a button press ends in a ReferenceError instead of a release. -/
theorem releaseUserSlot_is_undefined :
    "releaseUserSlot" ∈ indexJsReleaseHandlerCalls ∧
    "releaseUserSlot" ∉ indexJsDefinedFunctions := by decide

/-- C6 is false as stated: at the positive delta of 1 ms the minute count is
exactly zero, yet the rendering still carries the minutes clause
("peste 0 minute") instead of omitting it. -/
theorem zero_minutes_clause_not_omitted :
    (0 : Int) < 1 ∧ (1 : Int).toNat / 60000 % 60 = 0 ∧
    humanRemaining 1
      = "peste " ++ toString ((1 : Int).toNat / 60000 % 60) ++ " minute" := by
  decide

/-- C6 (amended).  A delta at or below zero renders the expired marker; a
positive delta with a zero hour count omits the hours clause but always
renders the minutes clause, even when the minute count is zero; a positive
delta with a positive hour count renders the hours clause and omits the
minutes clause exactly when the minute count is zero. -/
theorem humanRemaining_clauses (ms : Int) :
    (ms ≤ 0 → humanRemaining ms = "expirat") ∧
    (0 < ms → ms.toNat / 60000 / 60 = 0 →
      humanRemaining ms
        = "peste " ++ toString (ms.toNat / 60000 % 60) ++ " minute") ∧
    (0 < ms → 0 < ms.toNat / 60000 / 60 → ms.toNat / 60000 % 60 = 0 →
      humanRemaining ms
        = "peste " ++ toString (ms.toNat / 60000 / 60) ++ " ore") ∧
    (0 < ms → 0 < ms.toNat / 60000 / 60 → 0 < ms.toNat / 60000 % 60 →
      humanRemaining ms
        = "peste " ++ toString (ms.toNat / 60000 / 60) ++ " ore "
            ++ toString (ms.toNat / 60000 % 60) ++ " minute") := by
  simp only [humanRemaining]
  refine ⟨?_, ?_, ?_, ?_⟩
  · intro h
    rw [if_pos h]
  · intro h hz
    rw [if_neg (by omega), if_pos hz]
  · intro h hpos hm
    rw [if_neg (by omega), if_neg (by omega), if_pos hm]
  · intro h hpos hm
    rw [if_neg (by omega), if_neg (by omega), if_neg (by omega)]

/-- C7.  The renderer is a pure function of the slot list and the clock
reading: two calls with identical inputs produce identical documents. -/
theorem buildPanelEmbed_deterministic (slots₁ slots₂ : List Slot)
    (now₁ now₂ : Int) (hs : slots₁ = slots₂) (hn : now₁ = now₂) :
    buildPanelEmbed now₁ slots₁ = buildPanelEmbed now₂ slots₂ := by
  rw [hs, hn]

/-- C9.  A claim or release request whose selection is malformed or whose
slot number lies outside [1, SLOT_COUNT] is rejected by the handler's
validation gate before any store statement runs: the handler reports
`invalid` and the table is returned unchanged. -/
theorem invalid_input_rejected (value : Option Int) (userId userName : String)
    (now : Int) (store : List Slot)
    (hbad : value = none ∨
      ∃ n, value = some n ∧ (n < 1 ∨ (SLOT_COUNT : Int) < n)) :
    fridgePickSlot value userId userName now store = (.invalid, store) ∧
    fridgeReleasePick value userId now store = (.invalid, store) := by
  rcases hbad with rfl | ⟨n, rfl, hn⟩
  · exact ⟨rfl, rfl⟩
  · constructor
    · show (if n < 1 ∨ (SLOT_COUNT : Int) < n then _ else _) = _
      rw [if_pos hn]
    · show (if n < 1 ∨ (SLOT_COUNT : Int) < n then _ else _) = _
      rw [if_pos hn]

/-! ### Witnesses instantiating the conditional theorems -/

theorem claim_race_witness :
    (reserveSlot 2 "bob" "Bob" 3 (reserveSlot 2 "alice" "Alice" 1 witStore).2).1
      = false :=
  (claim_race_exactly_one_winner witStore 2 "alice" "Alice" "bob" "Bob" 1 3
    (by decide) ⟨⟨2, none, none, none, none⟩, by decide, rfl, rfl⟩).2.1

theorem release_iff_held_witness :
    (releaseSpecificSlot 1 "bob" witStore).1 = none ∧
    (releaseSpecificSlot 1 "bob" witStore).2 = witStore :=
  (release_iff_held witStore 1 "bob").2 (by decide)

theorem sweep_spec_witness :
    freeExpiredSlots 99999999 (freeExpiredSlots 99999999 witStore)
      = freeExpiredSlots 99999999 witStore :=
  (sweep_spec 99999999 witStore (by decide)).2.2.2

theorem read_paths_after_sweep_witness :
    clearSlot staleSlot ∈ freeSlotsFilter (freeExpiredSlots 10 [staleSlot]) :=
  (read_paths_after_sweep 10 "alice" [staleSlot] (by decide)).2 staleSlot
    (by decide) (by decide)

theorem humanRemaining_clauses_witness :
    humanRemaining 5400000 = "peste 1 ore 30 minute" := by
  rw [(humanRemaining_clauses 5400000).2.2.2 (by decide) (by decide) (by decide)]
  rfl

theorem buildPanelEmbed_deterministic_witness :
    buildPanelEmbed 0 witStore = buildPanelEmbed 0 witStore :=
  buildPanelEmbed_deterministic witStore witStore 0 0 rfl rfl

theorem invalid_input_rejected_witness :
    fridgePickSlot (some 0) "u" "U" 0 witStore = (.invalid, witStore) :=
  (invalid_input_rejected (some 0) "u" "U" 0 witStore
    (Or.inr ⟨0, rfl, Or.inl (by decide)⟩)).1

theorem claim_has_no_per_user_quota_witness :
    (reserveSlot 2 "alice" "Alice" 1 witStore).1 = true :=
  (claim_has_no_per_user_quota witStore "alice" "Alice" 2 1
    ⟨1, some "alice", some "Alice", some 0, some 28800000⟩
    (by decide) (by decide) rfl
    ⟨⟨2, none, none, none, none⟩, by decide, rfl, rfl⟩).1

/-! ### The publish path: `upsertPanelMessage` converges to one artifact -/

/-- Overwriting an existing key makes it the value `find?` returns. -/
theorem find?_replaceKey {k v : String} {l : List (String × String)}
    (h : l.any (fun p => p.1 == k) = true) :
    (l.map (fun p => if p.1 == k then (k, v) else p)).find?
      (fun p => p.1 == k) = some (k, v) := by
  induction l with
  | nil => simp at h
  | cons q t ih =>
    by_cases hq : q.1 == k
    · simp only [List.map_cons, if_pos hq]
      exact List.find?_cons_of_pos _ (by simp)
    · simp only [List.map_cons, if_neg hq]
      rw [List.find?_cons_of_neg (p := fun (r : String × String) => r.1 == k) _ hq]
      refine ih ?_
      rw [List.any_cons, Bool.or_eq_true] at h
      exact h.resolve_left hq

/-- Reading `getMeta` after `setMeta` on the same key reads the value just set. -/
theorem getMeta_setMeta (k v : String) (meta : List (String × String)) :
    getMeta k (setMeta k v meta) = some v := by
  unfold setMeta getMeta
  by_cases h : meta.any (fun p => p.1 == k) = true
  · rw [if_pos h, find?_replaceKey h]
    rfl
  · rw [if_neg h]
    rw [Bool.not_eq_true, List.any_eq_false] at h
    rw [List.find?_append, List.find?_eq_none.mpr (fun x hx => h x hx)]
    simp

/-- If some message carries id `mid` and every such message holds `doc`,
fetching `mid` yields `doc`. -/
theorem fetchMessage_of_all {mid : String} {doc : DisplayDoc}
    {msgs : List (String × DisplayDoc)}
    (hex : ∃ p ∈ msgs, p.1 = mid)
    (hall : ∀ p ∈ msgs, p.1 = mid → p = (mid, doc)) :
    fetchMessage mid msgs = some doc := by
  induction msgs with
  | nil => simp at hex
  | cons q t ih =>
    by_cases hq : q.1 = mid
    · have hqe := hall q (List.mem_cons_self q t) hq
      unfold fetchMessage
      rw [List.find?_cons_of_pos
        (p := fun (r : String × DisplayDoc) => r.1 == mid) _ (by simp [hq]), hqe]
      rfl
    · unfold fetchMessage
      rw [List.find?_cons_of_neg
        (p := fun (r : String × DisplayDoc) => r.1 == mid) _ (by simp [hq])]
      have hex' : ∃ p ∈ t, p.1 = mid := by
        obtain ⟨p, hp, hpe⟩ := hex
        rcases List.mem_cons.mp hp with rfl | hpt
        · exact absurd hpe hq
        · exact ⟨p, hpt, hpe⟩
      exact ih hex' (fun p hp hpe => hall p (List.mem_cons_of_mem q hp) hpe)

/-- Editing a message to the document it already holds changes nothing. -/
theorem editMessage_eq_self {mid : String} {doc : DisplayDoc}
    {msgs : List (String × DisplayDoc)}
    (h : ∀ p ∈ msgs, p.1 = mid → p = (mid, doc)) :
    editMessage mid doc msgs = msgs := by
  unfold editMessage
  induction msgs with
  | nil => rfl
  | cons q t ih =>
    simp only [List.map_cons]
    have ht := ih (fun p hp hpe => h p (List.mem_cons_of_mem q hp) hpe)
    by_cases hq : q.1 == mid
    · rw [if_pos hq, ht, ← h q (List.mem_cons_self q t) (by simpa using hq)]
    · rw [if_neg hq, ht]

/-- After an edit, every message under the edited id holds the new doc. -/
theorem editMessage_mem {mid : String} {doc : DisplayDoc}
    {msgs : List (String × DisplayDoc)} :
    ∀ p ∈ editMessage mid doc msgs, p.1 = mid → p = (mid, doc) := by
  intro p hp hpe
  unfold editMessage at hp
  rw [List.mem_map] at hp
  obtain ⟨q, _, rfl⟩ := hp
  by_cases hqb : q.1 == mid
  · rw [if_pos hqb]
  · rw [if_neg hqb] at hpe
    exact absurd (beq_iff_eq.mpr hpe) hqb

/-- Editing keeps the edited id present. -/
theorem editMessage_exists {mid : String} {doc : DisplayDoc}
    {msgs : List (String × DisplayDoc)} (hex : ∃ p ∈ msgs, p.1 = mid) :
    ∃ p ∈ editMessage mid doc msgs, p.1 = mid := by
  obtain ⟨p, hp, hpe⟩ := hex
  unfold editMessage
  refine ⟨if p.1 == mid then (mid, doc) else p, List.mem_map_of_mem _ hp, ?_⟩
  rw [if_pos (beq_iff_eq.mpr hpe)]

/-- A successful fetch means the id occurs among the messages. -/
theorem fetchMessage_some_exists {mid : String} {d : DisplayDoc}
    {msgs : List (String × DisplayDoc)}
    (h : fetchMessage mid msgs = some d) : ∃ p ∈ msgs, p.1 = mid := by
  unfold fetchMessage at h
  cases hf : msgs.find? (fun p => p.1 == mid) with
  | none => rw [hf] at h; simp at h
  | some p =>
    have hp := List.find?_some hf
    have hmem := List.mem_of_find?_eq_some hf
    exact ⟨p, hmem, by simpa using hp⟩

/-- Behaviour of `upsertPanelMessage` when the persisted id resolves to a message. -/
theorem upsert_eq_edit {now : Int} {w : World} {mid : String} {d : DisplayDoc}
    (h1 : getMeta "panel_message_id" w.meta = some mid)
    (h2 : fetchMessage mid w.messages = some d) :
    upsertPanelMessage now w =
      ({ w with slots := freeExpiredSlots now w.slots,
                messages := editMessage mid
                  (buildPanelEmbed now (freeExpiredSlots now w.slots)) w.messages },
       buildPanelEmbed now (freeExpiredSlots now w.slots)) := by
  unfold upsertPanelMessage
  simp only [h1, h2]

/-- Behaviour of `upsertPanelMessage` when no id was ever persisted: send and record. -/
theorem upsert_eq_send_none {now : Int} {w : World}
    (h1 : getMeta "panel_message_id" w.meta = none) :
    upsertPanelMessage now w =
      ({ w with slots := freeExpiredSlots now w.slots,
                messages := w.messages ++ [(toString w.nextMsgId,
                  buildPanelEmbed now (freeExpiredSlots now w.slots))],
                nextMsgId := w.nextMsgId + 1,
                meta := setMeta "panel_message_id" (toString w.nextMsgId) w.meta },
       buildPanelEmbed now (freeExpiredSlots now w.slots)) := by
  unfold upsertPanelMessage
  simp only [h1]

/-- Behaviour of `upsertPanelMessage` when the persisted id no longer resolves: the
stale id is forgotten and a replacement is sent. -/
theorem upsert_eq_send_stale {now : Int} {w : World} {mid : String}
    (h1 : getMeta "panel_message_id" w.meta = some mid)
    (h2 : fetchMessage mid w.messages = none) :
    upsertPanelMessage now w =
      ({ w with slots := freeExpiredSlots now w.slots,
                messages := w.messages ++ [(toString w.nextMsgId,
                  buildPanelEmbed now (freeExpiredSlots now w.slots))],
                nextMsgId := w.nextMsgId + 1,
                meta := setMeta "panel_message_id" (toString w.nextMsgId) w.meta },
       buildPanelEmbed now (freeExpiredSlots now w.slots)) := by
  unfold upsertPanelMessage
  simp only [h1, h2]

/-- The document a publish returns is the rendering of the swept table, and
the returned world carries exactly that swept table. -/
theorem upsert_snd (now : Int) (w : World) :
    (upsertPanelMessage now w).2
      = buildPanelEmbed now (freeExpiredSlots now w.slots) ∧
    (upsertPanelMessage now w).1.slots = freeExpiredSlots now w.slots := by
  rcases hg : getMeta "panel_message_id" w.meta with _ | mid
  · rw [upsert_eq_send_none hg]
    exact ⟨rfl, rfl⟩
  · rcases hf : fetchMessage mid w.messages with _ | d
    · rw [upsert_eq_send_stale hg hf]
      exact ⟨rfl, rfl⟩
    · rw [upsert_eq_edit hg hf]
      exact ⟨rfl, rfl⟩

/-- One publish establishes the panel invariant, provided the counter only
hands out ids not already present in the channel. -/
theorem upsert_establishes_PanelOk (now : Int) (w : World)
    (hfresh : ∀ p ∈ w.messages, p.1 ≠ toString w.nextMsgId) :
    PanelOk now (upsertPanelMessage now w).1 := by
  rcases hg : getMeta "panel_message_id" w.meta with _ | mid
  · rw [upsert_eq_send_none hg]
    unfold PanelOk
    refine ⟨(freeExpiredSlots_idem now w.slots).symm, toString w.nextMsgId,
      getMeta_setMeta _ _ _, ?_, ?_⟩
    · exact ⟨(toString w.nextMsgId,
        buildPanelEmbed now (freeExpiredSlots now w.slots)),
        List.mem_append_right _ (List.mem_singleton_self _), rfl⟩
    · intro p hp hpe
      rcases List.mem_append.mp hp with hl | hr
      · exact absurd hpe (hfresh p hl)
      · rw [List.mem_singleton] at hr
        rw [hr]
  · rcases hf : fetchMessage mid w.messages with _ | d
    · rw [upsert_eq_send_stale hg hf]
      unfold PanelOk
      refine ⟨(freeExpiredSlots_idem now w.slots).symm, toString w.nextMsgId,
        getMeta_setMeta _ _ _, ?_, ?_⟩
      · exact ⟨(toString w.nextMsgId,
          buildPanelEmbed now (freeExpiredSlots now w.slots)),
          List.mem_append_right _ (List.mem_singleton_self _), rfl⟩
      · intro p hp hpe
        rcases List.mem_append.mp hp with hl | hr
        · exact absurd hpe (hfresh p hl)
        · rw [List.mem_singleton] at hr
          rw [hr]
    · rw [upsert_eq_edit hg hf]
      unfold PanelOk
      exact ⟨(freeExpiredSlots_idem now w.slots).symm, mid, hg,
        editMessage_exists (fetchMessage_some_exists hf), editMessage_mem⟩

/-- On a world already satisfying the panel invariant, a publish edits the
existing artifact with the unchanged rendering and alters nothing. -/
theorem upsert_of_PanelOk {now : Int} {w : World} (h : PanelOk now w) :
    upsertPanelMessage now w = (w, buildPanelEmbed now w.slots) := by
  obtain ⟨hs, mid, hg, hex, hall⟩ := h
  have hfetch : fetchMessage mid w.messages
      = some (buildPanelEmbed now w.slots) := fetchMessage_of_all hex hall
  rw [upsert_eq_edit hg hfetch, ← hs, editMessage_eq_self hall]

/-- C8.  With a fresh message counter, publishing twice in a row with no
slot mutation in between returns the same rendered document both times and
the second publish leaves the entire world — slots, metadata, channel —
exactly as the first left it (it edits the recorded artifact rather than
sending a new one); starting from an empty channel, exactly one artifact
exists after publishing. -/
theorem publish_idempotent (now : Int) (w : World)
    (hfresh : ∀ p ∈ w.messages, p.1 ≠ toString w.nextMsgId) :
    (upsertPanelMessage now (upsertPanelMessage now w).1).2
      = (upsertPanelMessage now w).2 ∧
    (upsertPanelMessage now (upsertPanelMessage now w).1).1
      = (upsertPanelMessage now w).1 ∧
    (w.messages = [] → (upsertPanelMessage now w).1.messages.length = 1) := by
  have hok := upsert_establishes_PanelOk now w hfresh
  have h2 := upsert_of_PanelOk hok
  refine ⟨?_, ?_, ?_⟩
  · rw [h2, (upsert_snd now w).2, (upsert_snd now w).1]
  · rw [h2]
  · intro hemp
    rcases hg : getMeta "panel_message_id" w.meta with _ | mid
    · rw [upsert_eq_send_none hg]
      simp [hemp]
    · have hf : fetchMessage mid w.messages = none := by
        rw [hemp]
        rfl
      rw [upsert_eq_send_stale hg hf]
      simp [hemp]

theorem publish_idempotent_witness :
    (upsertPanelMessage 7 (upsertPanelMessage 7 emptyWorld).1).1
      = (upsertPanelMessage 7 emptyWorld).1 :=
  (publish_idempotent 7 emptyWorld (by simp [emptyWorld])).2.1

end JobMeth
